import Mathlib

/-!
# Horizon AI worker — verification of the dispatcher security layer and services

Shallow embedding of the parts of the Horizon AI backend worker that the
checked claims are about:

* `worker/ipc/permission_guard.py` — `PermissionGuard` (tables and `check`);
* `worker/ipc/dispatcher.py` — `CommandDispatcher.dispatch` pre-flight
  (guard → payload size → rate limiter), the `get_models` size parser and
  the `chat` streaming generator;
* `worker/services/rate_limiter.py` — `RateLimiter.check_limit`;
* `worker/services/chat_history_service.py` — `save_message`, `get_messages`;
* `worker/services/crypto_service.py` / `tunnel_service.py` — the
  encryption envelope and auth-token issuance/validation.

Modelling conventions:

* Python dicts keyed by strings become association lists (`List (k × v)`)
  with `List.lookup`.
* `time.time()` / `datetime.utcnow()` become explicit `Int` parameters.
* AES-256-GCM is modelled as an ideal authenticated cipher: an encrypted
  envelope is a constructor remembering the key (and associated data) under
  which it was produced; decryption succeeds exactly under the same key and
  associated data.  PBKDF2 key derivation is modelled as the injection of
  the password into the `MasterKey` type.  SHA-256 is modelled as the
  injection of the input into a `Digest` type.  Only the service logic
  around these primitives is under verification, never the primitives.
* Randomness (`secrets.token_urlsafe`, `uuid.uuid4`) becomes an explicit
  parameter holding the drawn value.
-/

namespace HorizonAI

/-! ## Python string primitives

Python strings are sequences of code points; Lean's `String` is the same
(`structure String where data : List Char`), but several core `String`
operations work over UTF-8 byte positions, so the Python operations the
sources use are modelled directly over the character list. -/

/-- Python slicing `s[:n]`. -/
def strTake (s : String) (n : ℕ) : String := ⟨s.data.take n⟩

/-- Python `s.upper()` (all inputs in the sources are ASCII). -/
def pyUpper (s : String) : String := ⟨s.data.map Char.toUpper⟩

/-- Python `s.replace(' ', '')`. -/
def removeSpaces (s : String) : String := ⟨s.data.filter (fun c => c ≠ ' ')⟩

/-- Python `s.endswith('IB')`. -/
def endsWithIB (s : String) : Bool :=
  match s.data.reverse with
  | 'B' :: 'I' :: _ => true
  | _ => false

/-- Python `s.replace('IB', 'B')`: leftmost, non-overlapping. -/
def replaceIBchars : List Char → List Char
  | 'I' :: 'B' :: rest => 'B' :: replaceIBchars rest
  | c :: rest => c :: replaceIBchars rest
  | [] => []

/-- Python `s.replace('IB', 'B')` on a string. -/
def replaceIBwithB (s : String) : String := ⟨replaceIBchars s.data⟩

/-! ## Permission guard (`worker/ipc/permission_guard.py`)

`REQUIRED_PERMISSIONS` and `ALWAYS_ALLOWED` transcribed verbatim. -/

/-- `PermissionGuard.REQUIRED_PERMISSIONS`: command → required permission. -/
def REQUIRED_PERMISSIONS : List (String × String) :=
  [ ("analyze_repository", "RepoAnalyze"),
    ("get_repo_summary", "RepoAnalyze"),
    ("detect_tech_debt", "RepoAnalyze"),
    ("projects_add_repo", "RepoAnalyze"),
    ("memory_save", "MemoryAccess"),
    ("memory_get", "MemoryAccess"),
    ("memory_list", "MemoryAccess"),
    ("memory_delete", "MemoryAccess"),
    ("memory_clear_session", "MemoryAccess"),
    ("memory_set_crypto_password", "MemoryAccess"),
    ("tunnel_install_cloudflared", "RemoteAccess"),
    ("tunnel_generate_token", "RemoteAccess"),
    ("tunnel_start", "RemoteAccess"),
    ("tunnel_stop", "RemoteAccess"),
    ("tunnel_get_qr", "RemoteAccess"),
    ("tunnel_add_allowed_ip", "RemoteAccess"),
    ("tunnel_remove_allowed_ip", "RemoteAccess"),
    ("tunnel_validate_token", "RemoteAccess"),
    ("tunnel_validate_custom_token", "RemoteAccess"),
    ("tunnel_set_custom_token", "RemoteAccess"),
    ("tunnel_set_named_tunnel", "RemoteAccess"),
    ("tunnel_get_qr_with_token", "RemoteAccess"),
    ("http_start", "RemoteAccess"),
    ("http_stop", "RemoteAccess"),
    ("set_startup", "CommandExecute") ]

/-- `PermissionGuard.ALWAYS_ALLOWED`: commands needing no permission. -/
def ALWAYS_ALLOWED : List String :=
  [ "health_check", "cancel_chat", "shutdown",
    "tunnel_check_cloudflared", "tunnel_install_progress", "tunnel_get_status",
    "get_system_stats", "get_monitoring",
    "load_settings", "save_settings",
    "pull", "get_models", "delete_model",
    "list_conversations", "get_conversation_messages",
    "get_conversation_metadata", "delete_conversation",
    "chat_history_set_crypto_password", "chat",
    "grant_permission", "revoke_permission", "has_permission",
    "rate_limiter_is_blocked", "rate_limiter_get_blocked",
    "rate_limiter_set_limit", "rate_limiter_get_limits",
    "rate_limiter_reset", "rate_limiter_get_stats",
    "update_conversation_project",
    "projects_list", "projects_get", "projects_create", "projects_update",
    "projects_delete", "projects_remove_repo", "projects_get_or_create_orphan",
    "airllm_list_models", "airllm_status", "airllm_enable", "airllm_reload",
    "airllm_disable", "airllm_set_active_model" ]

/-- Mutable state of a `PermissionGuard` instance.  `__init__` sets
`enabled = True` and an empty granted-permission set. -/
structure PermissionGuard where
  enabled : Bool
  granted_permissions : List String
  deriving Repr, DecidableEq

/-- The guard as constructed by `PermissionGuard.__init__` (its default
state: enabled, nothing granted). -/
def PermissionGuard.init : PermissionGuard := ⟨true, []⟩

/-- `PermissionGuard.check(cmd, payload)`: returns `(allowed, error_message)`.
The payload is never consulted by the source, so it is not a parameter. -/
def PermissionGuard.check (g : PermissionGuard) (cmd : String) : Bool × String :=
  if !g.enabled then (true, "")
  else if ALWAYS_ALLOWED.contains cmd then (true, "")
  else
    match REQUIRED_PERMISSIONS.lookup cmd with
    | none => (false, "Unknown or disallowed command: " ++ cmd)
    | some requiredPerm =>
      if g.granted_permissions.contains requiredPerm then (true, "")
      else (false, "Permission " ++ requiredPerm ++ " required for command " ++ cmd)

/-- `PermissionGuard.grant_permission`. -/
def PermissionGuard.grantPermission (g : PermissionGuard) (p : String) : PermissionGuard :=
  { g with granted_permissions := g.granted_permissions ++ [p] }

/-! ## Rate limiter (`worker/services/rate_limiter.py`)

Timestamps (`time.time()`) are modelled as `Int` parameters.  The
`defaultdict`-of-`deque` history and the `blocked_ips` dict are modelled as
association lists; an absent history key reads as the empty deque. -/

/-- Replace (or insert) the binding of `k` in an association list, keeping
one entry per key as a Python dict does. -/
def updateAssoc {α β : Type} [BEq α] (l : List (α × β)) (k : α) (v : β) :
    List (α × β) :=
  (k, v) :: l.filter (fun p => !(p.1 == k))

/-- Delete the binding of `k` (Python `del d[k]`). -/
def removeAssoc {α β : Type} [BEq α] (l : List (α × β)) (k : α) : List (α × β) :=
  l.filter (fun p => !(p.1 == k))

/-- `RateLimiter.__init__`, field `limits` (requests per minute). -/
def defaultLimits : List (String × Nat) :=
  [ ("tunnel_start", 5),
    ("tunnel_stop", 5),
    ("tunnel_generate_token", 3),
    ("analyze_repository", 3),
    ("grant_permission", 10),
    ("default", 30),
    ("tunnel_validate_custom_token", 2),
    ("tunnel_set_custom_token", 2) ]

/-- `RateLimiter.block_duration` (seconds). -/
def blockDuration : Int := 300

/-- `RateLimiter.time_window` (seconds). -/
def timeWindow : Int := 60

/-- State of the `RateLimiter` singleton: per-command-and-client timestamp
history and the per-client temporary block list. -/
structure RateLimiter where
  limits : List (String × Nat)
  request_history : List ((String × String) × List Int)
  blocked_ips : List (String × Int)
  deriving Repr, DecidableEq

/-- The limiter as constructed by `RateLimiter.__init__`. -/
def RateLimiter.init : RateLimiter := ⟨defaultLimits, [], []⟩

/-- `self.request_history[command][ip]` (a missing key is an empty deque). -/
def RateLimiter.histOf (rl : RateLimiter) (command ip : String) : List Int :=
  (rl.request_history.lookup (command, ip)).getD []

/-- Store back the (mutated-in-place in Python) deque for `(command, ip)`. -/
def RateLimiter.setHist (rl : RateLimiter) (command ip : String)
    (h : List Int) : RateLimiter :=
  { rl with request_history := updateAssoc rl.request_history (command, ip) h }

/-- `self.limits.get(command, self.limits["default"])`.  The source keeps a
`"default"` entry in the dict at all times; `getD 30` only covers the
(unreachable for the shipped tables) case of a missing `"default"` key. -/
def RateLimiter.getLimit (rl : RateLimiter) (command : String) : Nat :=
  (rl.limits.lookup command).getD ((rl.limits.lookup "default").getD 30)

/-- `RateLimiter._block_ip`. -/
def RateLimiter.blockIp (rl : RateLimiter) (ip : String) (now : Int) : RateLimiter :=
  { rl with blocked_ips := updateAssoc rl.blocked_ips ip (now + blockDuration) }

/-- Steps 2–5 of `RateLimiter.check_limit` (after the block-list check):
drop timestamps older than the window from the front of the deque, deny and
block when the limit is reached, otherwise record the request. -/
def RateLimiter.checkWindow (rl : RateLimiter) (command ip : String)
    (now : Int) : (Bool × Option Int) × RateLimiter :=
  let limit := rl.getLimit command
  let history := rl.histOf command ip
  let history := history.dropWhile (fun ts => ts < now - timeWindow)
  if limit ≤ history.length then
    ((false, some blockDuration), ((rl.setHist command ip history).blockIp ip now))
  else
    ((true, none), rl.setHist command ip (history ++ [now]))

/-- `RateLimiter.check_limit(command, ip)` at wall-clock time `now`:
returns `(allowed, retry_after_seconds)` and the successor state. -/
def RateLimiter.checkLimit (rl : RateLimiter) (command ip : String)
    (now : Int) : (Bool × Option Int) × RateLimiter :=
  match rl.blocked_ips.lookup ip with
  | some unblockTime =>
    if 0 < unblockTime - now then ((false, some (unblockTime - now)), rl)
    else
      ({ rl with blocked_ips := removeAssoc rl.blocked_ips ip }).checkWindow
        command ip now
  | none => rl.checkWindow command ip now

/-- A sequence of `check_limit` calls for one `(command, ip)` pair, pairing
each call's timestamp with its `(allowed, retry_after)` result. -/
def RateLimiter.runCalls (rl : RateLimiter) (command ip : String) :
    List Int → List (Int × Bool × Option Int) × RateLimiter
  | [] => ([], rl)
  | t :: ts =>
    let step := rl.checkLimit command ip t
    let rest := step.2.runCalls command ip ts
    ((t, step.1) :: rest.1, rest.2)

/-- Membership of timestamp `t` in the 60-second window starting at `a`. -/
def inWindow (a t : Int) : Bool :=
  decide (a ≤ t) && decide (t ≤ a + timeWindow)

/-- Number of calls in `calls` that returned `allowed` and whose timestamp
lies in the 60-second window starting at `a`. -/
def countAllowedInWindow (a : Int) (calls : List (Int × Bool × Option Int)) : Nat :=
  calls.countP (fun c => c.2.1 && inWindow a c.1)

/-- Number of recorded timestamps of `h` inside the window starting at `a`. -/
def countWindowHist (a : Int) (h : List Int) : Nat :=
  h.countP (inWindow a)

/-! ## Crypto service (`worker/services/crypto_service.py`), idealized

`CryptoService.set_password` derives the AES-256-GCM master key from the
password by PBKDF2-HMAC-SHA256 (fixed per-user salt, 100 000 iterations).
The derivation is modelled as the injection of the password into
`MasterKey`; distinct passwords give distinct keys (PBKDF2 collision
freeness is idealized).  SHA-256 (`hashlib.sha256(...).hexdigest()`) is
modelled as the injection of the hashed string into `Digest`. -/

/-- The in-memory master key, determined by the password it was derived
from (`CryptoService._master_key` after `set_password`). -/
structure MasterKey where
  password : String
  deriving Repr, DecidableEq

/-- A SHA-256 hex digest, represented by the string that was hashed. -/
structure Digest where
  input : String
  deriving Repr, DecidableEq

/-- `hashlib.sha256(s.encode()).hexdigest()`, idealized. -/
def sha256Hex (s : String) : Digest := ⟨s⟩

/-! ## Conversation store (`worker/services/chat_history_service.py`)

A conversation file holds the JSON dict written by `save_message`, either
in clear or as `"ENC:" + base64(nonce ‖ AES-GCM(master_key, json))`.  The
envelope is modelled by `FileContent`: `enc k c` stands for a file starting
with the literal prefix `ENC:` whose remainder decrypts to conversation `c`
under master key `k` (and under no other key — ideal cipher); `plain c`
stands for a clear JSON file, which never starts with `ENC:` (serialized
dicts start with `{`).  `datetime.now().isoformat()` timestamps are string
parameters. -/

/-- One element of the `messages` list. -/
structure Msg where
  role : String
  content : String
  timestamp : String
  deriving Repr, DecidableEq

/-- The conversation dict held in a history file.  `model` and `projectId`
are `None`-able, `title` is a string (`not data.get('title')` in the
source is falsy exactly on the missing/empty title, modelled as `""`). -/
structure Conversation where
  id : String
  title : String
  model : Option String
  projectId : Option String
  messages : List Msg
  created_at : String
  updated_at : String
  deriving Repr, DecidableEq

/-- On-disk content of a (well-formed) conversation file. -/
inductive FileContent where
  /-- A clear JSON file (does not start with `ENC:`). -/
  | plain (conv : Conversation)
  /-- `"ENC:" + base64(...)`: decrypts to `conv` exactly under `key`. -/
  | enc (key : MasterKey) (conv : Conversation)
  deriving Repr, DecidableEq

/-- Whether the file's text starts with the literal prefix `ENC:`. -/
def FileContent.startsWithENC : FileContent → Bool
  | .plain _ => false
  | .enc _ _ => true

/-- `ChatHistoryService.get_messages(chat_id)`: `file` is the content of
`<storage>/<chat_id>.json` (`none` when the file does not exist), `key` is
`self.crypto_service._master_key`.  Decryption failures (wrong key) and a
missing key are surfaced as an empty message list. -/
def getMessages (file : Option FileContent) (key : Option MasterKey) : List Msg :=
  match file with
  | none => []
  | some (.plain conv) => conv.messages
  | some (.enc k conv) =>
    match key with
    | none => []
    | some k' => if k' = k then conv.messages else []

/-- `ChatHistoryService.save_message` acting on one conversation file.
Arguments mirror the Python signature (`chat_id` resolved to the file
`existing`; `uuid.uuid4()` for a fresh id is drawn by the caller), plus the
current master key and the `datetime.now()` timestamp.  Returns the new
file content. -/
def saveMessage (existing : Option FileContent) (chatId role content : String)
    (model : Option String) (encrypt : Bool) (projectId : Option String)
    (key : Option MasterKey) (now : String) : FileContent :=
  -- the freshly initialized dict `data`
  let data0 : Conversation :=
    { id := chatId
      title := if role = "user" then strTake content 30 else "New Chat"
      model := model
      projectId := projectId
      messages := []
      created_at := now
      updated_at := now }
  -- load the existing file, decrypting if necessary; on a missing key or a
  -- decryption failure the fresh dict is kept; an already-encrypted file
  -- that decrypts forces `encrypt = True`
  let loaded : Conversation × Bool :=
    match existing with
    | none => (data0, encrypt)
    | some (.plain conv) => (conv, encrypt)
    | some (.enc k conv) =>
      match key with
      | none => (data0, encrypt)
      | some k' => if k' = k then (conv, true) else (data0, encrypt)
  let data := loaded.1
  let encrypt := loaded.2
  -- `if model and not data.get('model')`
  let data := if model.isSome && data.model.isNone then { data with model := model } else data
  -- `if project_id is not None`
  let data := if projectId.isSome then { data with projectId := projectId } else data
  -- `if role == "user" and (not data.get('title') or data['title'] == "New Chat")`
  let data :=
    if role = "user" && (data.title = "" || data.title = "New Chat") then
      { data with title := strTake content 40 ++ (if 40 < content.length then "..." else "") }
    else data
  let data := { data with messages := data.messages ++ [⟨role, content, now⟩], updated_at := now }
  -- `if encrypt and self.crypto_service and self.crypto_service._master_key`
  match key with
  | some k => if encrypt then .enc k data else .plain data
  | none => .plain data

/-! ## Tunnel service auth tokens (`worker/services/tunnel_service.py`)

`generate_auth_token`, `_save_config` (token wrapping) and
`validate_token`.  The `auth_token` string field of `TunnelConfig` is
either empty, a sha256 hex digest (which never starts with `ENC:`), or an
`ENC:`-prefixed envelope produced with associated data
`"tunnel_auth_token"`; it is modelled by `StoredAuthToken`. -/

/-- The `auth_token` field of `TunnelConfig`, classified by its shape. -/
inductive StoredAuthToken where
  /-- the empty string (no token configured) -/
  | empty
  /-- a bare sha256 hex digest -/
  | plainHash (hash : Digest)
  /-- `"ENC:" + encrypt_string(hash, associated_data)` under `key` -/
  | encHash (key : MasterKey) (associatedData : String) (hash : Digest)
  deriving Repr, DecidableEq

/-- The fields of `TunnelConfig` that token issuance and validation touch.
`token_created_at` is an ISO timestamp string, modelled as `Option Int`
(`none` for the empty string, which `validate_token` treats as "skip the
expiry check"). -/
structure TunnelConfig where
  auth_token : StoredAuthToken
  token_created_at : Option Int
  token_expires_hours : Int
  deriving Repr, DecidableEq

/-- `TunnelService.generate_auth_token(expires_hours)`: `rawToken` is the
value drawn by `secrets.token_urlsafe(32)` and `now` is
`datetime.utcnow()`.  Returns the updated in-memory config; the raw token
itself is the value handed back to the caller. -/
def generateAuthToken (cfg : TunnelConfig) (rawToken : String) (now : Int)
    (expiresHours : Int) : TunnelConfig :=
  { cfg with
    auth_token := .plainHash (sha256Hex rawToken)
    token_created_at := some now
    token_expires_hours := expiresHours }

/-- The `auth_token` value written to `tunnel_config.json` by
`TunnelService._save_config`: an already-encrypted token is kept, a bare
hash is wrapped as `ENC:...` with associated data `"tunnel_auth_token"`
when the crypto master key is set, and saved bare otherwise. -/
def savedAuthToken (tok : StoredAuthToken) (key : Option MasterKey) :
    StoredAuthToken :=
  match tok with
  | .empty => .empty
  | .encHash k ad h => .encHash k ad h
  | .plainHash h =>
    match key with
    | some k => .encHash k "tunnel_auth_token" h
    | none => .plainHash h

/-- `TunnelService.validate_token(token)` at time `now` against config
`cfg`, with crypto master key `key`: returns `(valid, reason)`. -/
def validateToken (cfg : TunnelConfig) (token : String)
    (key : Option MasterKey) (now : Int) : Bool × Option String :=
  if token = "" ∨ cfg.auth_token = .empty then
    (false, some "No token configured")
  else
    -- decrypt the stored hash when it is `ENC:`-prefixed
    let storedHash : Option Digest :=
      match cfg.auth_token with
      | .empty => none
      | .plainHash h => some h
      | .encHash k ad h =>
        match key with
        | none => none
        | some k' => if k' = k ∧ ad = "tunnel_auth_token" then some h else none
    match storedHash, cfg.auth_token with
    | none, .encHash _ _ _ =>
      match key with
      | none => (false, some "Token encrypted but master key not configured")
      | some _ => (false, some "Token decryption failed")
    | none, _ => (false, some "No token configured")
    | some h, _ =>
      if sha256Hex token ≠ h then (false, some "Invalid token")
      else
        match cfg.token_created_at with
        | none => (true, none)
        | some createdAt =>
          if createdAt + cfg.token_expires_hours * 3600 < now then
            (false, some "Token expired")
          else (true, none)

/-! ## `get_models` size parsing (`worker/ipc/dispatcher.py`)

Parsing of one `ollama list` output line, already split on whitespace into
`parts` (`line.split()`).  Python floats are modelled over `ℚ` (only
equality of parses across input shapes is at stake, never rounding);
`float(s)` failures (`ValueError`) propagate to the enclosing `except`,
which leaves `size_bytes = 0`. -/

/-- The regex character class `[0-9.]` (code points 48–57 and 46). -/
def isNumDotChar (c : Char) : Bool :=
  (48 ≤ c.toNat && c.toNat ≤ 57) || c.toNat == 46

/-- The regex character class `[A-Za-z]` (code points 65–90 and 97–122). -/
def isAsciiLetterChar (c : Char) : Bool :=
  (65 ≤ c.toNat && c.toNat ≤ 90) || (97 ≤ c.toNat && c.toNat ≤ 122)

/-- The regex character class `[0-9]`. -/
def isDigitChar (c : Char) : Bool :=
  48 ≤ c.toNat && c.toNat ≤ 57

/-- `re.match(r'^[0-9.]+$', s)`. -/
def isNumericStr (s : String) : Bool :=
  !s.data.isEmpty && s.data.all isNumDotChar

/-- `re.match(r'^[A-Za-z]+$', s)`. -/
def isAlphaStr (s : String) : Bool :=
  !s.data.isEmpty && s.data.all isAsciiLetterChar

/-- `float(s)` for an `s` drawn from `[0-9.]+`: defined exactly when `s`
has at least one digit and at most one dot.  The value is represented
exactly as a decimal `(mantissa, scale)` pair standing for
`mantissa / 10 ^ scale` (the claims only compare parses of equal inputs,
so exact decimal arithmetic stands in for IEEE-754 doubles). -/
def parseFloatQ (s : String) : Option (ℕ × ℕ) :=
  let cs := s.data
  if cs.isEmpty then none
  else if !cs.all isNumDotChar then none
  else if 1 < (cs.filter (fun c => c.toNat == 46)).length then none
  else if !cs.any isDigitChar then none
  else
    let intPart := cs.takeWhile (fun c => !(c.toNat == 46))
    let fracPart := (cs.dropWhile (fun c => !(c.toNat == 46))).drop 1
    let digitsVal : List Char → ℕ :=
      fun l => l.foldl (fun acc c => 10 * acc + (c.toNat - 48)) 0
    some (digitsVal intPart * 10 ^ fracPart.length + digitsVal fracPart,
      fracPart.length)

/-- `re.match(r'^([0-9.]+)([A-Za-z]+)$', s)`: the two capture groups, when
the whole string matches (the first group is maximal, and the classes are
disjoint, so the decomposition is unique). -/
def splitNumAlpha (s : String) : Option (String × String) :=
  let num := s.data.takeWhile isNumDotChar
  let rest := s.data.dropWhile isNumDotChar
  if !num.isEmpty && !rest.isEmpty && rest.all isAsciiLetterChar then
    some (⟨num⟩, ⟨rest⟩)
  else none

/-- Unit normalization: `replace('IB', 'B')` on units ending in `IB`, then
single-letter prefixes expanded. -/
def normalizeUnit (u : String) : String :=
  let u := if endsWithIB u then replaceIBwithB u else u
  if u = "K" then "KB"
  else if u = "M" then "MB"
  else if u = "G" then "GB"
  else if u = "T" then "TB"
  else u

/-- `unit_multipliers`. -/
def unitMultipliers : List (String × ℕ) :=
  [ ("B", 1),
    ("KB", 1024),
    ("MB", 1024 * 1024),
    ("GB", 1024 * 1024 * 1024),
    ("TB", 1024 * 1024 * 1024 * 1024) ]

/-- `parts[i]` (only evaluated under a length guard in the source). -/
def partAt (parts : List String) (i : ℕ) : String := parts.getD i ""

/-- The `size_value` / `size_unit` extraction inside the `try` block:
`Except` failure is a raised `ValueError` from `float`, the inner `none`
is "no regex matched". -/
def extractSizeValueUnit (parts : List String) :
    Except Unit (Option ((ℕ × ℕ) × String)) :=
  -- first branch: separate numeric and unit columns
  let first : Except Unit (Option ((ℕ × ℕ) × String)) :=
    if 4 ≤ parts.length && isNumericStr (partAt parts 2) && isAlphaStr (partAt parts 3) then
      match parseFloatQ (partAt parts 2) with
      | some v => .ok (some (v, pyUpper (partAt parts 3)))
      | none => .error ()
    else .ok none
  match first with
  | .error _ => .error ()
  | .ok (some vu) => .ok (some vu)
  | .ok none =>
    -- fallback: joined `<num><unit>` token (re-joining columns 2 and 3)
    let sizeClean :=
      if 4 ≤ parts.length then partAt parts 2 ++ partAt parts 3 else partAt parts 2
    let sizeClean := removeSpaces sizeClean
    match splitNumAlpha sizeClean with
    | none => .ok none
    | some (numStr, alphaStr) =>
      match parseFloatQ numStr with
      | some v => .ok (some (v, pyUpper alphaStr))
      | none => .error ()

/-- `size_bytes` computed by the `get_models` handler for one line
(`0` when fewer than three columns, on any parse failure, or for an
unrecognized unit). -/
def parseSizeBytes (parts : List String) : Int :=
  if 3 ≤ parts.length then
    match extractSizeValueUnit parts with
    | .error _ => 0
    | .ok none => 0
    | .ok (some (v, u)) =>
      match unitMultipliers.lookup (normalizeUnit u) with
      -- `int(size_value * multiplier)`: truncating the nonnegative exact
      -- value `(mantissa / 10 ^ scale) * mult` is floor division
      | some mult => ((v.1 * mult) / 10 ^ v.2 : ℕ)
      | none => 0
  else 0

/-! ## Chat streaming (`worker/ipc/dispatcher.py`, `chat_stream`)

The `chat` handler's generator, parameterized by:

* `provider` — the `payload["provider"]` string (the source branches on
  `provider == "airllm"`, every other value takes the Ollama path);
* `prepError` — an exception raised in the preparation phase before the
  `prompt_preview` event (prior-message load, memory lookup, web search,
  prompt build), `none` when preparation succeeds;
* `airllmResult` — the sidecar's `airllm_manager.generate` outcome:
  `.ok text` for `{ok: True, text}`, `.error e` for a failed generation
  (which the handler re-raises);
* `ollamaChunks` — the token strings produced by the
  `ollama.chat(..., stream=True)` iterator;
* `cancelAt` — the cancellation schedule: `self.cancel_streaming` reads
  `false` at its first `k` inspections and `true` from the `k`-th
  inspection on (`some k`), or is never set (`none`).  The flag is reset
  at generator start and only ever set once by `cancel_chat`, so every
  schedule of the real boolean has this shape.

The result records the emitted event list and the assistant message
persisted through `chat_history_service.save_message`, if any. -/

/-- One event yielded by `chat_stream` (payload fields that the claims do
not mention — `chat_id`, prompt ids — are omitted from the constructors). -/
inductive StreamEvent where
  | promptPreview
  | token (data : String)
  | done
  | cancelled
  | error (message : String)
  deriving Repr, DecidableEq

/-- Stream-terminating event kinds (`done` / `cancelled` / `error`). -/
def StreamEvent.isTerminal : StreamEvent → Bool
  | .done => true
  | .cancelled => true
  | .error _ => true
  | _ => false

/-- Everything observable about one run of the generator. -/
structure ChatStreamRun where
  events : List StreamEvent
  savedAssistant : Option String
  deriving Repr, DecidableEq

/-- Whether the `i`-th read of `self.cancel_streaming` returns true under
schedule `cancelAt`. -/
def cancelRead (cancelAt : Option ℕ) (i : ℕ) : Bool :=
  match cancelAt with
  | some k => decide (k ≤ i)
  | none => false

/-- `text[i:i+80]` chunking, with an explicit recursion bound (each step
consumes at least one character, so `fuel = l.length` always suffices;
the fuel only makes the recursion structural). -/
def chunk80Fuel : ℕ → List Char → List (List Char)
  | _, [] => []
  | 0, _ :: _ => []
  | fuel + 1, c :: rest =>
    ((c :: rest).take 80) :: chunk80Fuel fuel ((c :: rest).drop 80)

/-- `text[i:i+80]` chunking of the sidecar's generated string
(`range(0, len(generated), chunk_size)` with `chunk_size = 80`). -/
def chunk80 (l : List Char) : List (List Char) := chunk80Fuel l.length l

/-- The sidecar branch's chunk loop: checks the cancel flag before each
chunk; on cancel it silently breaks.  Returns the events yielded and the
accumulated `full_response`. -/
def airllmLoop (cancelAt : Option ℕ) : List String → ℕ → String →
    List StreamEvent × String
  | [], _, acc => ([], acc)
  | c :: rest, i, acc =>
    if cancelRead cancelAt i then ([], acc)
    else
      let r := airllmLoop cancelAt rest (i + 1) (acc ++ c)
      (.token c :: r.1, r.2)

/-- The Ollama branch's streaming loop: checks the cancel flag at each
chunk; on cancel it yields a `cancelled` event and breaks.  Returns the
events yielded and the accumulated `full_response`. -/
def ollamaLoop (cancelAt : Option ℕ) : List String → ℕ → String →
    List StreamEvent × String
  | [], _, acc => ([], acc)
  | c :: rest, i, acc =>
    if cancelRead cancelAt i then ([.cancelled], acc)
    else
      let r := ollamaLoop cancelAt rest (i + 1) (acc ++ c)
      (.token c :: r.1, r.2)

/-- The body of `chat_stream` (the `try`/`except` of the generator): after
the loop — whether it was exited by `break` or by exhaustion — both
branches fall through to `save_message(..., "assistant", full_response)`
and `yield {"event": "done"}`. -/
def chatStream (provider : String) (prepError : Option String)
    (airllmResult : Except String String) (ollamaChunks : List String)
    (cancelAt : Option ℕ) : ChatStreamRun :=
  match prepError with
  | some e => { events := [.error e], savedAssistant := none }
  | none =>
    if provider = "airllm" then
      match airllmResult with
      | .error e =>
        -- `if not result.get("ok"): raise ...` → except → error event
        { events := [.promptPreview, .error e], savedAssistant := none }
      | .ok generated =>
        let chunks := (chunk80 generated.data).map (fun l => (⟨l⟩ : String))
        let r := airllmLoop cancelAt chunks 0 ""
        { events := [.promptPreview] ++ r.1 ++ [.done], savedAssistant := some r.2 }
    else
      let r := ollamaLoop cancelAt ollamaChunks 0 ""
      { events := [.promptPreview] ++ r.1 ++ [.done], savedAssistant := some r.2 }

/-! ## Dispatcher pre-flight (`worker/ipc/dispatcher.py`, `dispatch`)

The ordered pre-flight of `CommandDispatcher.dispatch`: permission guard,
payload-size validation, rate limiting — then handler selection.  The
handler stage is abstracted by a function argument; the result records
whether it was ever invoked. -/

/-- `input_validator.max_payload_size` (bytes). -/
def maxPayloadSize : ℕ := 1024 * 1024

/-- The dispatcher's standardized error dict
(`_create_error_response(code, message, context)`), or the value computed
by a handler. -/
inductive DispatchResult (α : Type) where
  | errorResp (code : String) (message : String) (context : Option String)
  | handled (value : α)
  deriving Repr, DecidableEq

/-- `CommandDispatcher.dispatch(cmd, payload)` up to handler selection.
`payloadSize` is the byte length of the JSON-serialized payload,
`clientId` is `payload.get("client_id", "unknown")`, `now` the wall-clock
time seen by the rate limiter, and `handler` stands for the body of the
selected command handler.  Returns the result, whether a handler ran, and
the successor rate-limiter state. -/
def dispatch {α : Type} (g : PermissionGuard) (rl : RateLimiter) (now : Int)
    (cmd clientId : String) (payloadSize : ℕ) (handler : Unit → α) :
    DispatchResult α × Bool × RateLimiter :=
  -- permission guard (deny → PERMISSION_DENIED)
  let checked := g.check cmd
  if !checked.1 then
    (.errorResp "PERMISSION_DENIED" ("Permission denied: " ++ checked.2) (some cmd),
     false, rl)
  -- payload size (deny → PAYLOAD_TOO_LARGE)
  else if maxPayloadSize < payloadSize then
    (.errorResp "PAYLOAD_TOO_LARGE"
      ("Payload too large (max " ++ toString maxPayloadSize ++ " bytes, got " ++
        toString payloadSize ++ ")") (some cmd), false, rl)
  -- rate limiting, only for commands present in the limiter's table
  else if (rl.limits.lookup cmd).isSome then
    let step := rl.checkLimit cmd clientId now
    if !step.1.1 then
      (.errorResp "RATE_LIMIT_EXCEEDED"
        ("Too many requests. Please try again in " ++
          toString ((step.1.2).getD 0) ++ " seconds") (some cmd), false, step.2)
    else (.handled (handler ()), true, step.2)
  else (.handled (handler ()), true, rl)


/-! ## Auxiliary projections -/

/-- The conversation dict stored in a file (under either envelope). -/
def FileContent.conv : FileContent → Conversation
  | .plain c => c
  | .enc _ c => c

/-! # Theorems -/

/-- **C1.** For every command name that is a member of neither the guard's
`ALWAYS_ALLOWED` set nor its `REQUIRED_PERMISSIONS` table, and for every
payload (any serialized size, any client id, any rate-limiter state, any
handler), `dispatch(cmd, payload)` with the guard enabled (its default
state) returns the standardized error response with code
`PERMISSION_DENIED` and does not invoke any handler. -/
theorem c1_unknown_command_denied {α : Type} (g : PermissionGuard)
    (henabled : g.enabled = true)
    (cmd : String)
    (hnotAllowed : ALWAYS_ALLOWED.contains cmd = false)
    (hnotListed : REQUIRED_PERMISSIONS.lookup cmd = none)
    (rl : RateLimiter) (now : Int) (clientId : String) (payloadSize : ℕ)
    (handler : Unit → α) :
    dispatch g rl now cmd clientId payloadSize handler =
      (.errorResp "PERMISSION_DENIED"
        ("Permission denied: " ++ ("Unknown or disallowed command: " ++ cmd))
        (some cmd), false, rl) := by
  have h1 : cmd ∉ ALWAYS_ALLOWED := by simpa using hnotAllowed
  simp [dispatch, PermissionGuard.check, henabled, h1, hnotListed]

/-- Witness for C1 at the unknown command `"nope"` (the spec's own
scenario 2), from the default guard and rate-limiter states. -/
theorem c1_unknown_command_denied_witness :
    dispatch PermissionGuard.init RateLimiter.init 0 "nope" "unknown" 2
        (fun _ => (0 : ℕ)) =
      (.errorResp "PERMISSION_DENIED"
        ("Permission denied: " ++ ("Unknown or disallowed command: " ++ "nope"))
        (some "nope"), false, RateLimiter.init) :=
  c1_unknown_command_denied PermissionGuard.init rfl "nope" (by decide) (by decide)
    RateLimiter.init 0 "unknown" 2 (fun _ => (0 : ℕ))

/-- If the freshly-seeded title (`content[:30]`) is falsy or `"New Chat"`,
the 40-character ellipsized rule reproduces `content[:30]` anyway (the
content must be `""` or `"New Chat"` itself). -/
theorem titleRule_eq_strTake30 (content : String)
    (h : strTake content 30 = "" ∨ strTake content 30 = "New Chat") :
    strTake content 40 ++ (if 40 < content.length then "..." else "") =
      strTake content 30 := by
  rcases h with h | h
  · have hd : content.data.take 30 = [] := congrArg String.data h
    have hnil : content.data = [] := by
      rcases List.take_eq_nil_iff.mp hd with h30 | hnil
      · exact absurd h30 (by norm_num)
      · exact hnil
    cases content with
    | mk d =>
      simp only at hnil
      subst hnil
      decide
  · have hd : content.data.take 30 = "New Chat".data := congrArg String.data h
    have hlen : content.data.length = 8 := by
      have h1 := congrArg List.length hd
      have h2 : ("New Chat".data).length = 8 := by decide
      rw [List.length_take, h2] at h1
      omega
    have hdata : content.data = "New Chat".data := by
      have : content.data.take 30 = content.data :=
        List.take_of_length_le (by omega)
      rw [this] at hd; exact hd
    cases content with
    | mk d =>
      simp only at hdata
      subst hdata
      decide

/-- **C8 counterexample.** For a 50-character first user message creating a
new conversation, the stored title is not the first 40 characters followed
by an ellipsis (it is the first 30 characters, seeded by the dict
initializer, which makes the 40-character rule unreachable). -/
theorem c8_title_counterexample :
    ((saveMessage none "chat-1" "user"
        "aaaaaaaaaaaaaaaaaaaaaaaaaaaaaaaaaaaaaaaaaaaaaaaaaa" none false none none
        "2024-01-01T00:00:00").conv).title ≠
      strTake "aaaaaaaaaaaaaaaaaaaaaaaaaaaaaaaaaaaaaaaaaaaaaaaaaa" 40 ++ "..." := by
  decide

/-- **C8 (amended).** For every first user message saved into a new
conversation (no existing file), the stored title equals the first 30
characters of the message content, with no ellipsis; the 40-character
ellipsized rule applies only to a user message arriving in an existing
conversation whose title is empty or `"New Chat"`. -/
theorem c8_new_conversation_title (chatId content : String)
    (model : Option String) (encrypt : Bool) (projectId : Option String)
    (key : Option MasterKey) (now : String) :
    ((saveMessage none chatId "user" content model encrypt projectId key now).conv).title =
      strTake content 30 := by
  have hrule := titleRule_eq_strTake30 content
  rcases key with _ | k <;>
    simp only [saveMessage, FileContent.conv] <;>
    split_ifs <;>
    simp_all
/-- **C2 counterexample.** An existing encrypted conversation file
(`ENC:` prefix), rewritten by `save_message` while the master key is unset,
comes out as a plaintext file: the write is neither kept encrypted nor
refused (the prior content is discarded and replaced). -/
theorem c2_plaintext_downgrade_counterexample :
    ((FileContent.enc ⟨"pw"⟩
        { id := "c", title := "Old title", model := none, projectId := none,
          messages := [⟨"user", "old message", "t0"⟩],
          created_at := "t0", updated_at := "t0" }).startsWithENC = true) ∧
    (saveMessage
        (some (.enc ⟨"pw"⟩
          { id := "c", title := "Old title", model := none, projectId := none,
            messages := [⟨"user", "old message", "t0"⟩],
            created_at := "t0", updated_at := "t0" }))
        "c" "user" "hi" none false none none "t1").startsWithENC = false ∧
    (saveMessage
        (some (.enc ⟨"pw"⟩
          { id := "c", title := "Old title", model := none, projectId := none,
            messages := [⟨"user", "old message", "t0"⟩],
            created_at := "t0", updated_at := "t0" }))
        "c" "user" "hi" none false none none "t1") ≠
      .enc ⟨"pw"⟩
        { id := "c", title := "Old title", model := none, projectId := none,
          messages := [⟨"user", "old message", "t0"⟩],
          created_at := "t0", updated_at := "t0" } := by
  refine ⟨rfl, by decide, by decide⟩

/-- **C2 (amended).** When the existing file for the chat is encrypted and
the master key matches it, the rewrite performed by `save_message` remains
encrypted.  When the master key is unset at that moment the write is NOT
refused: the encrypted conversation is discarded and the file is rewritten
as a new plaintext conversation containing only the new message. -/
theorem c2_encrypted_rewrite (k : MasterKey) (conv : Conversation)
    (chatId role content : String) (model : Option String) (encrypt : Bool)
    (projectId : Option String) (now : String) :
    ((saveMessage (some (.enc k conv)) chatId role content model encrypt projectId
        (some k) now).startsWithENC = true)
  ∧ ((saveMessage (some (.enc k conv)) chatId role content model encrypt projectId
        none now).startsWithENC = false)
  ∧ ((saveMessage (some (.enc k conv)) chatId role content model encrypt projectId
        none now).conv.messages = [⟨role, content, now⟩]) := by
  refine ⟨?_, ?_, ?_⟩ <;>
    simp only [saveMessage, FileContent.startsWithENC, FileContent.conv] <;>
    split_ifs <;>
    simp_all

/-- **C5.** A conversation saved encrypted under the key derived from
password `P` reads back (under the key derived from the same `P`) with
message content identical to what was saved; under the key derived from
any different password the decryption failure is surfaced as an empty
message list, not an exception. -/
theorem c5_encrypted_roundtrip (passwordP passwordQ : String)
    (hne : passwordQ ≠ passwordP) (chatId content : String)
    (model : Option String) (projectId : Option String) (now : String) :
    (getMessages
        (some (saveMessage none chatId "user" content model true projectId
          (some ⟨passwordP⟩) now))
        (some ⟨passwordP⟩) = [⟨"user", content, now⟩])
  ∧ (getMessages
        (some (saveMessage none chatId "user" content model true projectId
          (some ⟨passwordP⟩) now))
        (some ⟨passwordQ⟩) = []) := by
  constructor <;>
    simp only [saveMessage, getMessages] <;>
    split_ifs <;>
    simp_all

/-- Witness for C5: a concrete conversation saved under the password
`"alpha"` and read back under `"alpha"` and under `"beta"`. -/
theorem c5_encrypted_roundtrip_witness :
    (getMessages
        (some (saveMessage none "c1" "user" "Message secret" none true none
          (some ⟨"alpha"⟩) "t0"))
        (some ⟨"alpha"⟩) = [⟨"user", "Message secret", "t0"⟩])
  ∧ (getMessages
        (some (saveMessage none "c1" "user" "Message secret" none true none
          (some ⟨"alpha"⟩) "t0"))
        (some ⟨"beta"⟩) = []) :=
  c5_encrypted_roundtrip "alpha" "beta" (by decide) "c1" "Message secret" none none "t0"
/-- **C7.** After `generate_auth_token`, the value persisted by
`_save_config` as the stored auth token is exactly the sha256 hex digest
of the clear token returned to the caller — bare when the crypto master
key is unset, wrapped as `ENC:<base64>` with associated-data label
`tunnel_auth_token` when it is set — never the clear token itself; and
`validate_token` applied to that returned clear token before its expiry
returns valid. -/
theorem c7_token_hash_persistence (cfg : TunnelConfig) (rawToken : String)
    (now expiresHours : Int) (keyAtValidation : Option MasterKey)
    (laterTime : Int) (hraw : rawToken ≠ "")
    (hbefore : laterTime ≤ now + expiresHours * 3600) :
    (savedAuthToken (generateAuthToken cfg rawToken now expiresHours).auth_token
        none = .plainHash (sha256Hex rawToken))
  ∧ (∀ k : MasterKey,
      savedAuthToken (generateAuthToken cfg rawToken now expiresHours).auth_token
          (some k) = .encHash k "tunnel_auth_token" (sha256Hex rawToken))
  ∧ (validateToken (generateAuthToken cfg rawToken now expiresHours) rawToken
        keyAtValidation laterTime = (true, none)) := by
  refine ⟨rfl, fun k => rfl, ?_⟩
  simp only [validateToken, generateAuthToken, sha256Hex]
  split_ifs with h1 h2 h3 <;> simp_all
  omega

/-- Witness for C7: a concrete 24-hour token generated at time 0,
validated one hour later. -/
theorem c7_token_hash_persistence_witness :
    (savedAuthToken
        (generateAuthToken ⟨.empty, none, 24⟩ "secrettoken" 0 24).auth_token
        none = .plainHash (sha256Hex "secrettoken"))
  ∧ (∀ k : MasterKey,
      savedAuthToken
          (generateAuthToken ⟨.empty, none, 24⟩ "secrettoken" 0 24).auth_token
          (some k) = .encHash k "tunnel_auth_token" (sha256Hex "secrettoken"))
  ∧ (validateToken (generateAuthToken ⟨.empty, none, 24⟩ "secrettoken" 0 24)
        "secrettoken" none 3600 = (true, none)) :=
  c7_token_hash_persistence ⟨.empty, none, 24⟩ "secrettoken" 0 24 none 3600
    (by decide) (by norm_num)
/-- **C3 (code bug, evaluation).** With the cancel flag raised after the
first token: on the Ollama path the stream emits `cancelled` but then
falls through to persist the partial response and emit `done` (so
`cancelled` is not the terminal event and the partial IS persisted); on
the AirLLM path no `cancelled` event is emitted at all — the loop breaks
silently, persists the partial chunk sequence and emits `done`. -/
theorem c3_cancelled_stream_behaviour :
    (let r := chatStream "ollama" none (.ok "") ["Hello", " world"] (some 1)
     r.events.getLast? = some .done ∧ r.savedAssistant = some "Hello")
  ∧ (let r := chatStream "airllm" none
        (.ok (String.mk (List.replicate 100 'a'))) [] (some 1)
     StreamEvent.cancelled ∉ r.events ∧
     r.events.getLast? = some .done ∧
     r.savedAssistant = some (String.mk (List.replicate 80 'a'))) := by
  constructor
  · exact ⟨rfl, rfl⟩
  · refine ⟨by decide, ?_, by decide⟩
    decide

/-- **C4 (code bug, evaluation).** A cancelled Ollama stream emits two
terminal events — `cancelled` followed by `done` — so the emitted sequence
does not contain exactly one terminal event, and the terminal-kind event
`cancelled` is not the last event of the sequence. -/
theorem c4_two_terminal_events :
    (chatStream "ollama" none (.ok "") ["Hello", " world"] (some 1)).events =
      [.promptPreview, .token "Hello", .cancelled, .done]
  ∧ ((chatStream "ollama" none (.ok "") ["Hello", " world"]
        (some 1)).events.countP StreamEvent.isTerminal) = 2 := by
  exact ⟨rfl, rfl⟩
/-- `takeWhile` over an append whose first part wholly satisfies `p`. -/
theorem takeWhile_append_of_all {p : Char → Bool} {l1 l2 : List Char}
    (h : ∀ c ∈ l1, p c = true) :
    (l1 ++ l2).takeWhile p = l1 ++ l2.takeWhile p := by
  induction l1 with
  | nil => simp
  | cons a l ih =>
    have ha : p a = true := h a (by simp)
    simp [List.takeWhile_cons, ha, ih (fun c hc => h c (by simp [hc]))]

/-- `dropWhile` over an append whose first part wholly satisfies `p`. -/
theorem dropWhile_append_of_all {p : Char → Bool} {l1 l2 : List Char}
    (h : ∀ c ∈ l1, p c = true) :
    (l1 ++ l2).dropWhile p = l2.dropWhile p := by
  induction l1 with
  | nil => simp
  | cons a l ih =>
    have ha : p a = true := h a (by simp)
    simp [List.dropWhile_cons, ha, ih (fun c hc => h c (by simp [hc]))]

/-- The regex classes `[A-Za-z]` and `[0-9.]` are disjoint. -/
theorem isNumDotChar_eq_false_of_letter {c : Char}
    (h : isAsciiLetterChar c = true) : isNumDotChar c = false := by
  simp [isAsciiLetterChar, isNumDotChar] at h ⊢
  omega

/-- Characters of either class are not the space character. -/
theorem ne_space_of_numDot_or_letter {c : Char}
    (h : isNumDotChar c = true ∨ isAsciiLetterChar c = true) : c ≠ ' ' := by
  rintro rfl
  rcases h with h | h <;> simp [isNumDotChar, isAsciiLetterChar] at h

/-- `removeSpaces` is the identity on space-free strings. -/
theorem removeSpaces_eq_self {s : String} (h : ∀ c ∈ s.data, c ≠ ' ') :
    removeSpaces s = s := by
  unfold removeSpaces
  have hf : s.data.filter (fun c => decide (c ≠ ' ')) = s.data := by
    rw [List.filter_eq_self]
    intro a ha
    simpa using h a ha
  show (⟨s.data.filter (fun c => decide (c ≠ ' '))⟩ : String) = s
  rw [hf]

/-- Splitting the regex `^([0-9.]+)([A-Za-z]+)$` on a concatenation of a
numeric part and an alphabetic part recovers exactly the two parts. -/
theorem splitNumAlpha_append {num unit : String}
    (hnum : isNumericStr num = true) (halpha : isAlphaStr unit = true) :
    splitNumAlpha (num ++ unit) = some (num, unit) := by
  rw [isNumericStr, Bool.and_eq_true] at hnum
  rw [isAlphaStr, Bool.and_eq_true] at halpha
  obtain ⟨hnumNE, hnumAll⟩ := hnum
  obtain ⟨halphaNE, halphaAll⟩ := halpha
  have hnumAll' : ∀ c ∈ num.data, isNumDotChar c = true := by
    intro c hc
    exact List.all_eq_true.mp hnumAll c hc
  have hdata : (num ++ unit).data = num.data ++ unit.data := rfl
  unfold splitNumAlpha
  rw [hdata, takeWhile_append_of_all hnumAll', dropWhile_append_of_all hnumAll']
  cases hu : unit.data with
  | nil => rw [hu] at halphaNE; simp at halphaNE
  | cons c restu =>
    have hc : isAsciiLetterChar c = true := by
      have := List.all_eq_true.mp halphaAll c (by rw [hu]; simp)
      exact this
    have hcf : isNumDotChar c = false := isNumDotChar_eq_false_of_letter hc
    have hrest : (c :: restu).all isAsciiLetterChar = true := by rw [← hu]; exact halphaAll
    have hnumNE' : num.data.isEmpty = false := by
      simpa using hnumNE
    simp only [List.takeWhile_cons, List.dropWhile_cons, hcf, Bool.false_eq_true,
      if_false, List.append_nil]
    rw [if_pos]
    · have h2 : (⟨c :: restu⟩ : String) = unit := by
        conv_rhs => rw [show unit = ⟨unit.data⟩ from rfl, hu]
      rw [h2]
    · simp [hnumNE', hrest]

/-- With four-plus columns whose third and fourth are a numeric string and
an alphabetic string, the extractor takes its first (split-columns)
branch. -/
theorem extractSizeValueUnit_split (name ident num unit : String)
    (rest : List String) (hnum : isNumericStr num = true)
    (halpha : isAlphaStr unit = true) :
    extractSizeValueUnit (name :: ident :: num :: unit :: rest) =
      match parseFloatQ num with
      | some v => .ok (some (v, pyUpper unit))
      | none => .error () := by
  have e2 : partAt (name :: ident :: num :: unit :: rest) 2 = num := rfl
  have e3 : partAt (name :: ident :: num :: unit :: rest) 3 = unit := rfl
  have h4 : decide (4 ≤ (name :: ident :: num :: unit :: rest).length) = true := by
    simp
  unfold extractSizeValueUnit
  rw [e2, e3, hnum, halpha, h4]
  simp only [Bool.and_self, Bool.and_true, Bool.true_and, if_true]
  cases hp : parseFloatQ num <;> simp [hp]

/-- With exactly three columns whose third is the joined token
`num ++ unit`, the extractor falls through to the joined-token branch and
recovers the same value and unit. -/
theorem extractSizeValueUnit_joined (name ident num unit : String)
    (hnum : isNumericStr num = true) (halpha : isAlphaStr unit = true) :
    extractSizeValueUnit [name, ident, num ++ unit] =
      match parseFloatQ num with
      | some v => .ok (some (v, pyUpper unit))
      | none => .error () := by
  have e2 : partAt [name, ident, num ++ unit] 2 = num ++ unit := rfl
  have h4 : decide (4 ≤ ([name, ident, num ++ unit] : List String).length) = false := by
    simp
  have hnospace : removeSpaces (num ++ unit) = num ++ unit := by
    apply removeSpaces_eq_self
    intro c hc
    rw [show (num ++ unit).data = num.data ++ unit.data from rfl] at hc
    rw [isNumericStr, Bool.and_eq_true] at hnum
    rw [isAlphaStr, Bool.and_eq_true] at halpha
    rcases List.mem_append.mp hc with h | h
    · exact ne_space_of_numDot_or_letter
        (Or.inl (List.all_eq_true.mp hnum.2 c h))
    · exact ne_space_of_numDot_or_letter
        (Or.inr (List.all_eq_true.mp halpha.2 c h))
  unfold extractSizeValueUnit
  rw [e2, h4]
  simp only [Bool.false_and, Bool.false_eq_true, if_false]
  rw [if_neg (by simp : ¬(4 ≤ ([name, ident, num ++ unit] : List String).length))]
  rw [hnospace, splitNumAlpha_append hnum halpha]

/-- **C9 counterexample.** A joined size-and-unit token (`"4.7GB"`)
followed by further columns (the `MODIFIED` field of `ollama list`)
parses to `0`, while the equivalent split form parses to the actual size:
the two forms do not produce the same size value. -/
theorem c9_joined_size_counterexample :
    parseSizeBytes ["deepseek-r1:7b", "8abc123def45", "4.7GB", "2", "months", "ago"] ≠
      parseSizeBytes ["deepseek-r1:7b", "8abc123def45", "4.7", "GB", "2", "months", "ago"] := by
  decide

/-- **C9 (amended).** The split form (`"<num> <unit>"`, any trailing
columns) agrees with the joined form only when the joined token is the
line's final column (`"<num><unit>"` as the third and last column); and a
binary-suffixed unit (`KiB`/`MiB`/`GiB`/`TiB`) yields the same size value
as its decimal-named counterpart in the split form.  (A joined token
followed by further columns instead parses to 0, per the
counterexample.) -/
theorem c9_size_parsing_amended :
    (∀ (name ident num unit : String) (rest : List String),
        isNumericStr num = true → isAlphaStr unit = true →
        parseSizeBytes (name :: ident :: num :: unit :: rest) =
          parseSizeBytes [name, ident, num ++ unit])
  ∧ (∀ (name ident num : String) (rest : List String),
        isNumericStr num = true →
        (parseSizeBytes (name :: ident :: num :: "KiB" :: rest) =
            parseSizeBytes (name :: ident :: num :: "KB" :: rest)
         ∧ parseSizeBytes (name :: ident :: num :: "MiB" :: rest) =
            parseSizeBytes (name :: ident :: num :: "MB" :: rest)
         ∧ parseSizeBytes (name :: ident :: num :: "GiB" :: rest) =
            parseSizeBytes (name :: ident :: num :: "GB" :: rest)
         ∧ parseSizeBytes (name :: ident :: num :: "TiB" :: rest) =
            parseSizeBytes (name :: ident :: num :: "TB" :: rest))) := by
  constructor
  · intro name ident num unit rest hnum halpha
    unfold parseSizeBytes
    rw [extractSizeValueUnit_split name ident num unit rest hnum halpha,
      extractSizeValueUnit_joined name ident num unit hnum halpha,
      if_pos (by simp : (3:ℕ) ≤ (name :: ident :: num :: unit :: rest).length),
      if_pos (by simp : (3:ℕ) ≤ ([name, ident, num ++ unit] : List String).length)]
  · intro name ident num rest hnum
    refine ⟨?_, ?_, ?_, ?_⟩ <;> (
      unfold parseSizeBytes
      rw [extractSizeValueUnit_split name ident num _ rest hnum (by decide),
        extractSizeValueUnit_split name ident num _ rest hnum (by decide),
        if_pos (by simp : (3:ℕ) ≤ (name :: ident :: num :: _ :: rest).length),
        if_pos (by simp : (3:ℕ) ≤ (name :: ident :: num :: _ :: rest).length)]
      cases hp : parseFloatQ num <;> rfl)

/-- Witness for the amended C9: the spec's own `4.7 GB` example, with a
trailing `MODIFIED` column for the split form and as a 3-column line for
the joined form; and `GiB` versus `GB`. -/
theorem c9_size_parsing_amended_witness :
    (parseSizeBytes ["deepseek-r1:7b", "8abc123def45", "4.7", "GB", "2", "months", "ago"] =
        parseSizeBytes ["deepseek-r1:7b", "8abc123def45", "4.7" ++ "GB"])
  ∧ (parseSizeBytes ["deepseek-r1:7b", "8abc123def45", "4.7", "GiB", "2", "months", "ago"] =
        parseSizeBytes ["deepseek-r1:7b", "8abc123def45", "4.7", "GB", "2", "months", "ago"]) :=
  ⟨c9_size_parsing_amended.1 "deepseek-r1:7b" "8abc123def45" "4.7" "GB"
      ["2", "months", "ago"] (by decide) (by decide),
    (c9_size_parsing_amended.2 "deepseek-r1:7b" "8abc123def45" "4.7"
      ["2", "months", "ago"] (by decide)).2.2.1⟩
/-- Dict update followed by lookup of the same key. -/
theorem lookup_updateAssoc {α β : Type} [BEq α] [LawfulBEq α]
    (l : List (α × β)) (k : α) (v : β) :
    (updateAssoc l k v).lookup k = some v := by
  simp [updateAssoc, List.lookup]

/-- Storing a deque touches only `request_history`. -/
theorem histOf_setHist (rl : RateLimiter) (cmd ip : String) (h : List Int) :
    (rl.setHist cmd ip h).histOf cmd ip = h := by
  simp [RateLimiter.setHist, RateLimiter.histOf, lookup_updateAssoc]

/-- `check_limit` when the client is not on the block list. -/
theorem checkLimit_not_blocked {rl : RateLimiter} {cmd ip : String} {now : Int}
    (h1 : rl.blocked_ips.lookup ip = none) :
    rl.checkLimit cmd ip now = rl.checkWindow cmd ip now := by
  unfold RateLimiter.checkLimit
  rw [h1]

/-- `check_limit` when the client is blocked with time remaining. -/
theorem checkLimit_blocked_active {rl : RateLimiter} {cmd ip : String}
    {now ub : Int} (h1 : rl.blocked_ips.lookup ip = some ub)
    (h2 : (0:Int) < ub - now) :
    rl.checkLimit cmd ip now = ((false, some (ub - now)), rl) := by
  unfold RateLimiter.checkLimit
  rw [h1]
  simp [h2]

/-- `check_limit` when the client's block has expired: the entry is
dropped and the ordinary sliding-window check runs. -/
theorem checkLimit_blocked_expired {rl : RateLimiter} {cmd ip : String}
    {now ub : Int} (h1 : rl.blocked_ips.lookup ip = some ub) (h2 : ub ≤ now) :
    rl.checkLimit cmd ip now =
      ({ rl with blocked_ips := removeAssoc rl.blocked_ips ip }).checkWindow
        cmd ip now := by
  unfold RateLimiter.checkLimit
  rw [h1]
  simp [show ¬ (0:Int) < ub - now by omega]

/-- A denied sliding-window check has just placed the client on the block
list until `now + block_duration`. -/
theorem checkWindow_denied_blocks (rl : RateLimiter) (cmd ip : String)
    (now : Int) (h : (rl.checkWindow cmd ip now).1.1 = false) :
    (rl.checkWindow cmd ip now).2.blocked_ips.lookup ip =
      some (now + blockDuration) := by
  simp only [RateLimiter.checkWindow] at h ⊢
  split
  case isTrue hc =>
    simp [RateLimiter.blockIp, RateLimiter.setHist, lookup_updateAssoc]
  case isFalse hc =>
    rw [if_neg hc] at h
    simp at h

/-- **C10.** The rate limiter's temporary block is keyed by client id
alone, not by (command, client id): (i) while a client is on the block
list with time remaining, `check_limit` denies every command from that
client id — including commands it has never invoked — returning the
remaining block time and leaving the state unchanged; (ii) any call that
returns the limit-exceeded denial `(denied, retry_after = block_duration)`
leaves the client on the block list until `now + block_duration`;
(iii) once the block has expired, the call proceeds as the ordinary
sliding-window check with the block entry dropped. -/
theorem c10_block_keyed_by_client_only :
    (∀ (rl : RateLimiter) (ip : String) (ub now : Int) (cmd : String),
        rl.blocked_ips.lookup ip = some ub → now < ub →
        rl.checkLimit cmd ip now = ((false, some (ub - now)), rl))
  ∧ (∀ (rl : RateLimiter) (cmd ip : String) (now : Int),
        (rl.checkLimit cmd ip now).1 = (false, some blockDuration) →
        (rl.checkLimit cmd ip now).2.blocked_ips.lookup ip =
          some (now + blockDuration))
  ∧ (∀ (rl : RateLimiter) (ip : String) (ub now : Int) (cmd : String),
        rl.blocked_ips.lookup ip = some ub → ub ≤ now →
        rl.checkLimit cmd ip now =
          ({ rl with blocked_ips := removeAssoc rl.blocked_ips ip }).checkWindow
            cmd ip now) := by
  refine ⟨?_, ?_, ?_⟩
  · intro rl ip ub now cmd h1 h2
    exact checkLimit_blocked_active h1 (by omega)
  · intro rl cmd ip now h
    rcases hlk : rl.blocked_ips.lookup ip with _ | ub
    · rw [checkLimit_not_blocked hlk] at h ⊢
      exact checkWindow_denied_blocks rl cmd ip now (by rw [h])
    · by_cases hpos : now < ub
      · rw [checkLimit_blocked_active hlk (by omega)] at h ⊢
        simp only [Prod.mk.injEq, Option.some.injEq, true_and] at h
        show rl.blocked_ips.lookup ip = some (now + blockDuration)
        rw [hlk]
        have : ub = now + blockDuration := by omega
        rw [this]
      · rw [checkLimit_blocked_expired hlk (by omega)] at h ⊢
        exact checkWindow_denied_blocks _ cmd ip now (by rw [h])
  · intro rl ip ub now cmd h1 h2
    exact checkLimit_blocked_expired h1 h2

/-- Witness for C10: a client blocked until `t = 310` is denied a command
it never invoked at `t = 10` with the remaining 300 seconds; exceeding the
`tunnel_set_custom_token` limit (2/min) blocks the client until
`now + 300`; a block expired at `t = 5` no longer short-circuits a call at
`t = 10`. -/
theorem c10_block_keyed_by_client_only_witness :
    ((RateLimiter.mk defaultLimits [] [("client", 310)]).checkLimit
        "never_invoked_cmd" "client" 10 =
      ((false, some (310 - 10 : Int)),
        RateLimiter.mk defaultLimits [] [("client", 310)]))
  ∧ (((RateLimiter.mk defaultLimits [(("tunnel_set_custom_token", "client"), [0, 0])]
        []).checkLimit "tunnel_set_custom_token" "client" 10).2.blocked_ips.lookup
        "client" = some (10 + blockDuration))
  ∧ ((RateLimiter.mk defaultLimits [] [("client", 5)]).checkLimit
        "health_check" "client" 10 =
      ({ RateLimiter.mk defaultLimits [] [("client", 5)] with
          blocked_ips := removeAssoc [("client", 5)] "client" }).checkWindow
        "health_check" "client" 10) :=
  ⟨c10_block_keyed_by_client_only.1 _ "client" 310 10 "never_invoked_cmd"
      (by decide) (by decide),
    c10_block_keyed_by_client_only.2.1 _ "tunnel_set_custom_token" "client" 10
      (by decide),
    c10_block_keyed_by_client_only.2.2 _ "client" 5 10 "health_check"
      (by decide) (by decide)⟩
/-- `dropWhile` is the identity when no element satisfies the predicate
(in particular no prefix does). -/
theorem dropWhile_eq_self_of_not {α : Type} {p : α → Bool} {l : List α}
    (h : ∀ x ∈ l, p x = false) : l.dropWhile p = l := by
  induction l with
  | nil => rfl
  | cons x xs ih =>
    rw [List.dropWhile_cons, if_neg (by simp [h x (by simp)])]

/-- `dropWhile` that loses no length drops nothing. -/
theorem dropWhile_eq_self_of_le_length {α : Type} {p : α → Bool} {l : List α}
    (h : l.length ≤ (l.dropWhile p).length) : l.dropWhile p = l := by
  have hsplit := List.takeWhile_append_dropWhile (p := p) (l := l)
  have hlen := congrArg List.length hsplit
  rw [List.length_append] at hlen
  have htw : (l.takeWhile p).length = 0 := by omega
  have htw' : l.takeWhile p = [] := List.length_eq_zero.mp htw
  conv_rhs => rw [← hsplit]
  rw [htw', List.nil_append]

/-- Cleaning the history at a call time inside (or before the end of) the
window `[a, a + 60]` removes no timestamp of that window. -/
theorem countWindowHist_dropWhile {a t : Int} (h : List Int)
    (hw : t ≤ a + timeWindow) :
    countWindowHist a (h.dropWhile (fun x => decide (x < t - timeWindow))) =
      countWindowHist a h := by
  conv_rhs =>
    rw [← List.takeWhile_append_dropWhile
      (p := fun x => decide (x < t - timeWindow)) (l := h)]
  rw [countWindowHist, countWindowHist, List.countP_append]
  have hz : (h.takeWhile (fun x => decide (x < t - timeWindow))).countP
      (inWindow a) = 0 := by
    rw [List.countP_eq_zero]
    intro x hx
    have hpx := List.mem_takeWhile_imp hx
    simp only [decide_eq_true_eq, timeWindow] at hpx
    simp only [inWindow, timeWindow] at hw ⊢
    simp only [Bool.and_eq_true, decide_eq_true_eq, not_and]
    intro h1
    omega
  omega

/-- An allowed-in-window count over a run is bounded by the number of call
times inside the window. -/
theorem countAllowed_le_times (cmd ip : String) (a : Int) (ts : List Int) :
    ∀ rl : RateLimiter,
      countAllowedInWindow a (rl.runCalls cmd ip ts).1 ≤
        ts.countP (inWindow a) := by
  induction ts with
  | nil => intro rl; simp [RateLimiter.runCalls, countAllowedInWindow]
  | cons t ts ih =>
    intro rl
    simp only [RateLimiter.runCalls, countAllowedInWindow, List.countP_cons]
    have hrec := ih (rl.checkLimit cmd ip t).2
    rw [countAllowedInWindow] at hrec
    by_cases hw : inWindow a t = true <;>
      by_cases hall : (rl.checkLimit cmd ip t).1.1 = true <;>
      simp [hw, hall] <;>
      omega

/-- A run over appended call lists is the two runs in sequence. -/
theorem runCalls_append (cmd ip : String) (ts1 ts2 : List Int) :
    ∀ rl : RateLimiter,
      rl.runCalls cmd ip (ts1 ++ ts2) =
        ((rl.runCalls cmd ip ts1).1 ++
            ((rl.runCalls cmd ip ts1).2.runCalls cmd ip ts2).1,
          ((rl.runCalls cmd ip ts1).2.runCalls cmd ip ts2).2) := by
  induction ts1 with
  | nil => intro rl; simp [RateLimiter.runCalls]
  | cons t ts ih =>
    intro rl
    simp only [List.cons_append, RateLimiter.runCalls, List.append_eq, ih]

/-- Blocking an ip touches only `blocked_ips`. -/
theorem histOf_blockIp (rl : RateLimiter) (ip : String) (now : Int)
    (cmd ip' : String) :
    (rl.blockIp ip now).histOf cmd ip' = rl.histOf cmd ip' := rfl

/-- Storing a deque leaves the limit table unchanged. -/
theorem getLimit_setHist (rl : RateLimiter) (cmd ip : String) (h : List Int)
    (c : String) : (rl.setHist cmd ip h).getLimit c = rl.getLimit c := rfl

/-- Blocking an ip leaves the limit table unchanged. -/
theorem getLimit_blockIp (rl : RateLimiter) (ip : String) (now : Int)
    (c : String) : (rl.blockIp ip now).getLimit c = rl.getLimit c := rfl

/-- One sliding-window step (`checkWindow`) preserves the per-window
bound: the window count of the recorded history plus the allowed-in-window
count of the remaining run stays at most the limit. -/
theorem window_step (cmd ip : String) (a t : Int) (ts : List Int)
    (hhead : ∀ x ∈ ts, t ≤ x)
    (IH : ∀ rl' : RateLimiter,
      (rl'.histOf cmd ip).length ≤ rl'.getLimit cmd →
      countWindowHist a (rl'.histOf cmd ip) +
          countAllowedInWindow a (rl'.runCalls cmd ip ts).1 ≤
        rl'.getLimit cmd)
    (rl : RateLimiter)
    (hlen : (rl.histOf cmd ip).length ≤ rl.getLimit cmd) :
    countWindowHist a (rl.histOf cmd ip) +
        countAllowedInWindow a
          ((t, (rl.checkWindow cmd ip t).1) ::
            ((rl.checkWindow cmd ip t).2.runCalls cmd ip ts).1) ≤
      rl.getLimit cmd := by
  simp only [RateLimiter.checkWindow]
  by_cases hlim : rl.getLimit cmd ≤
      ((rl.histOf cmd ip).dropWhile (fun x => decide (x < t - timeWindow))).length
  · -- denied: the deque was already full, and nothing was dropped
    rw [if_pos hlim]
    have hd : (rl.histOf cmd ip).dropWhile (fun x => decide (x < t - timeWindow)) =
        rl.histOf cmd ip :=
      dropWhile_eq_self_of_le_length (le_trans hlen hlim)
    rw [hd]
    have hIH := IH ((rl.setHist cmd ip (rl.histOf cmd ip)).blockIp ip t)
      (by rw [histOf_blockIp, histOf_setHist, getLimit_blockIp, getLimit_setHist]
          exact hlen)
    rw [histOf_blockIp, histOf_setHist, getLimit_blockIp, getLimit_setHist] at hIH
    simp only [countAllowedInWindow, List.countP_cons] at hIH ⊢
    simp only [Bool.false_and, Bool.false_eq_true, if_false, add_zero]
    omega
  · -- allowed: the cleaned deque has room, record the call
    rw [if_neg hlim]
    push_neg at hlim
    have hIH := IH (rl.setHist cmd ip
        ((rl.histOf cmd ip).dropWhile (fun x => decide (x < t - timeWindow)) ++ [t]))
      (by rw [histOf_setHist, getLimit_setHist]; simp; omega)
    rw [histOf_setHist, getLimit_setHist] at hIH
    by_cases hw : t ≤ a + timeWindow
    · have hch := countWindowHist_dropWhile (a := a) (t := t) (rl.histOf cmd ip) hw
      by_cases hwin : inWindow a t = true
      · have happ : countWindowHist a
            ((rl.histOf cmd ip).dropWhile (fun x => decide (x < t - timeWindow)) ++ [t]) =
            countWindowHist a
              ((rl.histOf cmd ip).dropWhile (fun x => decide (x < t - timeWindow))) + 1 := by
          simp [countWindowHist, List.countP_append, List.countP_cons, hwin]
        rw [happ, hch] at hIH
        simp only [countAllowedInWindow, List.countP_cons] at hIH ⊢
        simp only [Bool.true_and, hwin, if_true]
        omega
      · have happ : countWindowHist a
            ((rl.histOf cmd ip).dropWhile (fun x => decide (x < t - timeWindow)) ++ [t]) =
            countWindowHist a
              ((rl.histOf cmd ip).dropWhile (fun x => decide (x < t - timeWindow))) := by
          simp [countWindowHist, List.countP_append, List.countP_cons, hwin]
        rw [happ, hch] at hIH
        simp only [countAllowedInWindow, List.countP_cons] at hIH ⊢
        simp only [Bool.true_and, hwin, Bool.false_eq_true, if_false, add_zero]
        omega
    · -- the call lies beyond the window: nothing after it can land inside
      have hwin : inWindow a t = false := by
        simp only [inWindow, Bool.and_eq_false_iff]
        right
        simpa using by omega
      have hrest : countAllowedInWindow a
          ((rl.setHist cmd ip
              ((rl.histOf cmd ip).dropWhile (fun x => decide (x < t - timeWindow)) ++ [t])).runCalls
            cmd ip ts).1 = 0 := by
        have hle := countAllowed_le_times cmd ip a ts (rl.setHist cmd ip
          ((rl.histOf cmd ip).dropWhile (fun x => decide (x < t - timeWindow)) ++ [t]))
        have hzero : ts.countP (inWindow a) = 0 := by
          rw [List.countP_eq_zero]
          intro x hx
          have hx' := hhead x hx
          simp only [timeWindow] at hw
          simp only [inWindow, timeWindow, Bool.and_eq_true, decide_eq_true_eq, not_and]
          intro h1
          omega
        omega
      simp only [countAllowedInWindow, List.countP_cons] at hrest ⊢
      rw [hrest]
      simp only [Bool.true_and, hwin, Bool.false_eq_true, if_false, add_zero]
      have hcb : countWindowHist a (rl.histOf cmd ip) ≤ (rl.histOf cmd ip).length :=
        List.countP_le_length _
      omega

/-- The sliding-window bound, generalized over the starting state: from
any state whose recorded deque for `(cmd, ip)` is within the limit, a run
of nondecreasing call times gets at most
`limit - (window count already recorded)` allowed results inside any
window `[a, a + 60]`. -/
theorem windowBound_aux (cmd ip : String) (a : Int) (times : List Int) :
    ∀ rl : RateLimiter,
      times.Pairwise (fun s t => s ≤ t) →
      (rl.histOf cmd ip).length ≤ rl.getLimit cmd →
      countWindowHist a (rl.histOf cmd ip) +
          countAllowedInWindow a (rl.runCalls cmd ip times).1 ≤
        rl.getLimit cmd := by
  induction times with
  | nil =>
    intro rl _ hlen
    simp only [RateLimiter.runCalls, countAllowedInWindow, List.countP_nil,
      add_zero]
    exact le_trans (List.countP_le_length _) hlen
  | cons t ts ih =>
    intro rl hpw hlen
    obtain ⟨hhead, htail⟩ := List.pairwise_cons.mp hpw
    simp only [RateLimiter.runCalls]
    rcases hlk : rl.blocked_ips.lookup ip with _ | ub
    · rw [checkLimit_not_blocked hlk]
      exact window_step cmd ip a t ts hhead (fun rl' h => ih rl' htail h) rl hlen
    · by_cases hpos : (0:Int) < ub - t
      · rw [checkLimit_blocked_active hlk hpos]
        have hIH := ih rl htail hlen
        simp only [countAllowedInWindow, List.countP_cons] at hIH ⊢
        simp only [Bool.false_and, Bool.false_eq_true, if_false, add_zero]
        omega
      · rw [checkLimit_blocked_expired hlk (by omega)]
        exact window_step cmd ip a t ts hhead (fun rl' h => ih rl' htail h)
          { rl with blocked_ips := removeAssoc rl.blocked_ips ip } hlen

/-- A run whose calls all lie inside one 60-second window of the recorded
history, with room for all of them under the limit and no block in force,
allows every call and appends every timestamp. -/
theorem runCalls_all_allowed (cmd ip : String) (lo : Int) (ts : List Int) :
    ∀ rl : RateLimiter,
      rl.blocked_ips.lookup ip = none →
      (∀ x ∈ rl.histOf cmd ip, lo ≤ x) →
      (∀ t ∈ ts, lo ≤ t ∧ t ≤ lo + timeWindow) →
      (rl.histOf cmd ip).length + ts.length ≤ rl.getLimit cmd →
      (rl.runCalls cmd ip ts).1 = ts.map (fun t => (t, true, none))
      ∧ (rl.runCalls cmd ip ts).2.histOf cmd ip = rl.histOf cmd ip ++ ts
      ∧ (rl.runCalls cmd ip ts).2.blocked_ips = rl.blocked_ips
      ∧ (rl.runCalls cmd ip ts).2.limits = rl.limits := by
  induction ts with
  | nil =>
    intro rl _ _ _ _
    simp [RateLimiter.runCalls]
  | cons t ts ih =>
    intro rl hblk hhist hts hlen
    obtain ⟨hlo, hhi⟩ := hts t (by simp)
    have hstep : rl.checkLimit cmd ip t =
        ((true, none), rl.setHist cmd ip (rl.histOf cmd ip ++ [t])) := by
      rw [checkLimit_not_blocked hblk]
      simp only [RateLimiter.checkWindow]
      have hd : (rl.histOf cmd ip).dropWhile (fun x => decide (x < t - timeWindow)) =
          rl.histOf cmd ip := by
        apply dropWhile_eq_self_of_not
        intro x hx
        have := hhist x hx
        simp only [timeWindow] at hhi ⊢
        simp only [decide_eq_false_iff_not, not_lt]
        omega
      rw [hd, if_neg (by simp at hlen ⊢; omega)]
    simp only [RateLimiter.runCalls, hstep]
    have hrec := ih (rl.setHist cmd ip (rl.histOf cmd ip ++ [t]))
      (by rw [show (rl.setHist cmd ip (rl.histOf cmd ip ++ [t])).blocked_ips =
            rl.blocked_ips from rfl]; exact hblk)
      (by rw [histOf_setHist]
          intro x hx
          rcases List.mem_append.mp hx with h | h
          · exact hhist x h
          · simp at h; omega)
      (fun x hx => hts x (by simp [hx]))
      (by rw [histOf_setHist, getLimit_setHist]; simp at hlen ⊢; omega)
    obtain ⟨hr1, hr2, hr3, hr4⟩ := hrec
    refine ⟨?_, ?_, ?_, ?_⟩
    · simp [hr1]
    · rw [hr2, histOf_setHist, List.append_assoc, List.singleton_append]
    · rw [hr3]
      rfl
    · rw [hr4]
      rfl

/-- **C6.** From a fresh limiter: (i) for every command (with its
configured limit `L`) and client id, any run of `check_limit` calls at
nondecreasing times gets at most `L` allowed results inside any 60-second
window `[a, a + 60]`; (ii) when `L` calls inside one window have all been
allowed, the `(L+1)`-th call inside that window is denied with
`retry_after` equal to the 300-second block duration, and the client is
placed on the block list until `now + block_duration`. -/
theorem c6_sliding_window_limit :
    (∀ (cmd ip : String) (a : Int) (times : List Int),
        times.Pairwise (fun s t => s ≤ t) →
        countAllowedInWindow a (RateLimiter.init.runCalls cmd ip times).1 ≤
          RateLimiter.init.getLimit cmd)
  ∧ (∀ (cmd ip : String) (lo : Int) (ts : List Int) (tfin : Int),
        (∀ t ∈ ts, lo ≤ t ∧ t ≤ lo + timeWindow) →
        lo ≤ tfin → tfin ≤ lo + timeWindow →
        ts.length = RateLimiter.init.getLimit cmd →
        (RateLimiter.init.runCalls cmd ip (ts ++ [tfin])).1 =
            ts.map (fun t => (t, true, none)) ++
              [(tfin, false, some blockDuration)]
        ∧ (RateLimiter.init.runCalls cmd ip
              (ts ++ [tfin])).2.blocked_ips.lookup ip =
            some (tfin + blockDuration)
        ∧ blockDuration = 300) := by
  constructor
  · intro cmd ip a times hpw
    have h := windowBound_aux cmd ip a times RateLimiter.init hpw
      (by simp [show RateLimiter.init.histOf cmd ip = [] from rfl])
    have h0 : countWindowHist a (RateLimiter.init.histOf cmd ip) = 0 := rfl
    omega
  · intro cmd ip lo ts tfin hts hlo hhi hlenL
    have hinit_hist : RateLimiter.init.histOf cmd ip = [] := rfl
    have hinit_blk : RateLimiter.init.blocked_ips.lookup ip = none := rfl
    obtain ⟨hr1, hr2, hr3, hr4⟩ := runCalls_all_allowed cmd ip lo ts
      RateLimiter.init hinit_blk
      (by rw [hinit_hist]; intro x hx; simp at hx)
      hts
      (by rw [hinit_hist, hlenL]; simp)
    have hFblk : (RateLimiter.init.runCalls cmd ip ts).2.blocked_ips.lookup ip =
        none := by rw [hr3]; exact hinit_blk
    have hFhist : (RateLimiter.init.runCalls cmd ip ts).2.histOf cmd ip = ts := by
      rw [hr2, hinit_hist, List.nil_append]
    have hFlim : (RateLimiter.init.runCalls cmd ip ts).2.getLimit cmd =
        RateLimiter.init.getLimit cmd := by
      rw [RateLimiter.getLimit, RateLimiter.getLimit, hr4]
    have hstep : (RateLimiter.init.runCalls cmd ip ts).2.checkLimit cmd ip tfin =
        ((false, some blockDuration),
          ((RateLimiter.init.runCalls cmd ip ts).2.setHist cmd ip ts).blockIp
            ip tfin) := by
      rw [checkLimit_not_blocked hFblk]
      simp only [RateLimiter.checkWindow]
      have hd : ((RateLimiter.init.runCalls cmd ip ts).2.histOf cmd ip).dropWhile
          (fun x => decide (x < tfin - timeWindow)) =
          (RateLimiter.init.runCalls cmd ip ts).2.histOf cmd ip := by
        apply dropWhile_eq_self_of_not
        intro x hx
        rw [hFhist] at hx
        have := (hts x hx).1
        simp only [timeWindow] at hhi ⊢
        simp only [decide_eq_false_iff_not, not_lt]
        omega
      rw [hd, hFhist, if_pos (by rw [hFlim]; omega)]
    refine ⟨?_, ?_, rfl⟩
    · rw [runCalls_append cmd ip ts [tfin] RateLimiter.init, hr1]
      simp only [RateLimiter.runCalls, hstep]
    · rw [runCalls_append cmd ip ts [tfin] RateLimiter.init]
      simp only [RateLimiter.runCalls, hstep]
      show (((RateLimiter.init.runCalls cmd ip ts).2.setHist cmd ip ts).blockIp
          ip tfin).blocked_ips.lookup ip = some (tfin + blockDuration)
      simp only [RateLimiter.blockIp]
      exact lookup_updateAssoc _ _ _

/-- Witness for C6: `tunnel_generate_token` (limit 3) called by one client
at times 0, 10, 20 and 30 — all within the window `[0, 60]`: three allowed
calls, then a denial with `retry_after = 300` and a block until 330. -/
theorem c6_sliding_window_limit_witness :
    (countAllowedInWindow 0
        (RateLimiter.init.runCalls "tunnel_generate_token" "client"
          [0, 10, 20, 30]).1 ≤
      RateLimiter.init.getLimit "tunnel_generate_token")
  ∧ ((RateLimiter.init.runCalls "tunnel_generate_token" "client"
        ([0, 10, 20] ++ [30])).1 =
      [(0, true, none), (10, true, none), (20, true, none)] ++
        [(30, false, some blockDuration)]
    ∧ (RateLimiter.init.runCalls "tunnel_generate_token" "client"
        ([0, 10, 20] ++ [30])).2.blocked_ips.lookup "client" =
        some (30 + blockDuration)
    ∧ blockDuration = 300) :=
  ⟨c6_sliding_window_limit.1 "tunnel_generate_token" "client" 0 [0, 10, 20, 30]
      (by decide),
    c6_sliding_window_limit.2 "tunnel_generate_token" "client" 0 [0, 10, 20] 30
      (by decide) (by decide) (by decide) (by decide)⟩

end HorizonAI
